import Mathlib

/-!
Shallow embedding of `src/CommandIsolator.cpp` from the mesos-command-modules
repository. The isolator keeps a registry (`hashmap<ContainerID,
ContainerConfig> m_infos`) and exposes four lifecycle operations: `prepare`,
`watch`, `cleanup` and `usage`. Each operation may dispatch an
operator-configured external command (a "hook") through a `CommandRunner`;
the runner and the JSON decoding helpers are external collaborators, so they
are modelled as oracle functions supplied to each operation.

Identifiers, configuration snapshots and the protobuf payloads are opaque to
the isolator: they are modelled as `Nat`. Hook outputs are strings, as in
the source (`Try<string>`); decoding (`jsonToProtobuf<T>`) is an oracle
`String → Except String T`.
-/

set_option autoImplicit false

namespace CommandIsolator

/-- `::mesos::ContainerID`, opaque to the isolator. -/
abbrev ContainerID := Nat

/-- `::mesos::slave::ContainerConfig`, an opaque immutable snapshot. -/
abbrev ContainerConfig := Nat

/-- `::mesos::slave::ContainerLaunchInfo`, opaque decoded payload. -/
abbrev ContainerLaunchInfo := Nat

/-- `::mesos::slave::ContainerLimitation`, opaque decoded payload. -/
abbrev ContainerLimitation := Nat

/-- A configured external command (the `Command` class); opaque here. -/
abbrev Command := Nat

/-- `RecurrentCommand`: a command together with its poll interval
(`frequence()`, in seconds). -/
structure RecurrentCommand where
  cmd : Command
  frequence : Nat
  deriving DecidableEq

/-- `::mesos::ResourceStatistics`: a timestamped metrics record.
`emptyStats` sets only the timestamp, so the payload is optional. -/
structure ResourceStatistics where
  timestamp : Nat
  payload : Option Nat
  deriving DecidableEq

/-- `CommandIsolatorProcess::emptyStats(timestamp)`: a statistics record with
only the timestamp set. -/
def emptyStats (timestamp : Nat) : ResourceStatistics :=
  ⟨timestamp, none⟩

/-- The registry `hashmap<ContainerID, ContainerConfig> m_infos`, modelled as
an association list with at most one binding per key (maintained by
`putInfos`/`eraseInfos`). -/
abbrev Registry := List (ContainerID × ContainerConfig)

/-- `m_infos[id]` / the lookup underlying `m_infos.contains(id)`. -/
def lookupInfos : Registry → ContainerID → Option ContainerConfig
  | [], _ => none
  | (k, v) :: rest, id => if k = id then some v else lookupInfos rest id

/-- `m_infos.contains(id)`. -/
def containsInfos (r : Registry) (id : ContainerID) : Bool :=
  (lookupInfos r id).isSome

/-- `m_infos.erase(id)`: removes every binding for `id` (idempotent no-op when
the key is absent). -/
def eraseInfos : Registry → ContainerID → Registry
  | [], _ => []
  | (k, v) :: rest, id =>
      if k = id then eraseInfos rest id else (k, v) :: eraseInfos rest id

/-- `m_infos.put(id, config)`: hashmap insert-or-replace semantics. -/
def putInfos (r : Registry) (id : ContainerID) (c : ContainerConfig) : Registry :=
  (id, c) :: eraseInfos r id

/-- The input document (`inputsJson`) written to a hook: always carries the
container identifier (`container_id`); carries the configuration snapshot
(`container_config`) exactly when a record exists at build time. -/
structure HookInput where
  containerId : ContainerID
  containerConfig : Option ContainerConfig
  deriving DecidableEq

/-- The failure taxonomy of the isolator. Each constructor corresponds to a
distinct `Failure(...)` site in the source:
AlreadyInit is `Failure("mesos-command-module already initialized for
container")` in `prepare`; NotInit is `Failure("mesos-command-module is not
initialized for current container")` in `watch`/`usage`; an execution
failure is `Failure(output.error())`; a decode failure is
`Failure("Unable to deserialize ...")`. -/
inductive IsolatorError where
  | alreadyInit
  | notInit
  | executionFailure (msg : String)
  | decodeFailure (msg : String)
  deriving DecidableEq

/-- Result of `CommandIsolatorProcess::prepare`:
`Failure`, `None()` (no launch customization), or a decoded
`ContainerLaunchInfo`. -/
inductive PrepareResult where
  | failure (e : IsolatorError)
  | noLaunchInfo
  | launchInfo (info : ContainerLaunchInfo)
  deriving DecidableEq

/-- The external collaborators used by `prepare`: `CommandRunner(...).run`
(blocking; yields `Try<string>`) and `jsonToProtobuf<ContainerLaunchInfo>`. -/
structure PrepareHook where
  run : Command → HookInput → Except String String
  decode : String → Except String ContainerLaunchInfo

/-- `CommandIsolatorProcess::prepare(containerId, containerConfig)`.
Fails with AlreadyInit when a record exists (registry untouched);
otherwise inserts the record first, then — when a prepare command is
configured — runs the hook on the input document carrying the identifier and
the config: an execution error or a decode error is a `Failure`, empty output
is `None()`, decoded output is the launch info. The inserted record is never
rolled back. -/
def prepare (prepareCommand : Option Command) (hook : PrepareHook)
    (infos : Registry) (containerId : ContainerID)
    (containerConfig : ContainerConfig) : PrepareResult × Registry :=
  if containsInfos infos containerId then
    (.failure .alreadyInit, infos)
  else
    let infos := putInfos infos containerId containerConfig
    match prepareCommand with
    | none => (.noLaunchInfo, infos)
    | some c =>
      match hook.run c ⟨containerId, some containerConfig⟩ with
      | .error e => (.failure (.executionFailure e), infos)
      | .ok output =>
        if output = "" then (.noLaunchInfo, infos)
        else
          match hook.decode output with
          | .error e =>
              (.failure (.decodeFailure
                ("Unable to deserialize ContainerLaunchInfo: " ++ e)), infos)
          | .ok info => (.launchInfo info, infos)

/-- Result of `CommandIsolatorProcess::cleanup`: `Nothing()` on success, or a
`Failure` propagating the hook's execution error. -/
inductive CleanupResult where
  | success
  | failure (e : IsolatorError)
  deriving DecidableEq

/-- The external collaborator used by `cleanup`: `CommandRunner(...).run`
(blocking). The hook's output string is ignored beyond success/failure. -/
structure CleanupHook where
  run : Command → HookInput → Except String String

/-- `CommandIsolatorProcess::cleanup(containerId)`.
With no configured cleanup command the record is erased and the call
succeeds. Otherwise the input document is built with the identifier and the
config when the record is present (its absence is only logged), the hook
runs, the record is erased unconditionally, and only then an execution error
is surfaced as a `Failure`. -/
def cleanup (cleanupCommand : Option Command) (hook : CleanupHook)
    (infos : Registry) (containerId : ContainerID) : CleanupResult × Registry :=
  match cleanupCommand with
  | none => (.success, eraseInfos infos containerId)
  | some c =>
    let output := hook.run c ⟨containerId, lookupInfos infos containerId⟩
    let infos := eraseInfos infos containerId
    match output with
    | .error e => (.failure (.executionFailure e), infos)
    | .ok _ => (.success, infos)

deriving instance DecidableEq for Except

/-- Result of the future returned by `CommandRunner(...).asyncRun` in
`usage`: either the future itself failed (handled by `.recover`), or it
completed with a `Try<string>` (handled by `.then`). -/
inductive UsageRun where
  | futureFailed (msg : String)
  | completed (output : Except String String)
  deriving DecidableEq

/-- The external collaborators used by `usage`: the asynchronous runner and
`jsonToProtobuf<ResourceStatistics>`. -/
structure UsageHook where
  asyncRun : Command → HookInput → UsageRun
  decode : String → Except String ResourceStatistics

/-- Result of `CommandIsolatorProcess::usage`: a statistics record, or a
`Failure`. -/
inductive UsageResult where
  | failure (e : IsolatorError)
  | stats (s : ResourceStatistics)
  deriving DecidableEq

/-- Whether a `usage` call resulted in a `Failure`. -/
def UsageResult.isFailure : UsageResult → Bool
  | .failure _ => true
  | .stats _ => false

/-- `CommandIsolatorProcess::usage(containerId)`. `now` is
`Clock::now().secs()` captured at the start of the call. With no configured
usage command the default empty statistics (timestamped `now`) are returned
immediately, before any registry check. Otherwise a missing record is a
NotInit `Failure`; with a record, the hook runs asynchronously and every
hook-side failure — the future failing, an execution error, empty output, or
a decode error — recovers to `emptyStats now`; only decoded non-empty output
is returned as is. -/
def usage (usageCommand : Option Command) (hook : UsageHook)
    (infos : Registry) (containerId : ContainerID) (now : Nat) : UsageResult :=
  match usageCommand with
  | none => .stats (emptyStats now)
  | some c =>
    match lookupInfos infos containerId with
    | none => .failure .notInit
    | some cfg =>
      match hook.asyncRun c ⟨containerId, some cfg⟩ with
      | .futureFailed _ => .stats (emptyStats now)
      | .completed (.error _) => .stats (emptyStats now)
      | .completed (.ok output) =>
        if output = "" then .stats (emptyStats now)
        else
          match hook.decode output with
          | .error _ => .stats (emptyStats now)
          | .ok s => .stats s

/-- What `CommandIsolatorProcess::watch(containerId)` returns: a
never-resolving future when no watch command is configured
(`process::Future<ContainerLimitation>()`), a NotInit `Failure` when the
record is absent, or a spawned polling loop whose closure captured the input
document serialized once at call time (`inputStringified`) together with the
recurrent command. -/
inductive WatchCall where
  | neverResolving
  | failure (e : IsolatorError)
  | loop (input : HookInput) (command : RecurrentCommand)
  deriving DecidableEq

/-- The external collaborators used by the watch loop:
`CommandRunner(...).runWithoutTimeout` (its result may differ from poll to
poll, so it also takes the poll index) and
`jsonToProtobuf<ContainerLimitation>`. -/
structure WatchHook where
  runWithoutTimeout : Command → HookInput → Nat → Except String String
  decode : String → Except String ContainerLimitation

/-- `CommandIsolatorProcess::watch(containerId)` up to the spawning of the
loop: the command-configured check comes first, then the input document is
built and the registry is consulted — a missing record is a NotInit
`Failure`, otherwise the loop starts with the input captured from the
registry at call time. -/
def watch (watchCommand : Option RecurrentCommand) (infos : Registry)
    (containerId : ContainerID) : WatchCall :=
  match watchCommand with
  | none => .neverResolving
  | some command =>
    match lookupInfos infos containerId with
    | some cfg => .loop ⟨containerId, some cfg⟩ command
    | none => .failure .notInit

/-- Outcome of running the watch loop for a bounded number of polls; each
constructor carries the list of input documents passed to the hook, in
order. `pending` is a loop that has not yet resolved, `terminatedNoLimit`
the discarded future produced when the record has disappeared, `limited` a
`Break` with the decoded limitation. -/
inductive WatchOutcome where
  | pending (calls : List HookInput)
  | terminatedNoLimit (calls : List HookInput)
  | limited (lim : ContainerLimitation) (calls : List HookInput)
  deriving DecidableEq

/-- The hook-invocation trace of a watch-loop outcome. -/
def WatchOutcome.calls : WatchOutcome → List HookInput
  | .pending cs => cs
  | .terminatedNoLimit cs => cs
  | .limited _ cs => cs

/-- The body-and-iterate step of the `process::loop` in `watch`, iterated
for `fuel` polls starting at poll index `n`. `world k` is the registry as
observed by the iterate callback of poll `k` (the registry may be mutated by
other lifecycle calls between polls). Each poll first runs the hook on the
captured `input` (the loop body), then the iterate callback: if the record
is gone the future is discarded (`terminatedNoLimit`); an execution error or
a decode error is logged and the loop continues after the poll interval;
empty output continues likewise; decoded output is `Break(limitation)`.
`acc` accumulates the inputs passed to the hook so far. -/
def watchLoopRun (hook : WatchHook) (world : Nat → Registry)
    (containerId : ContainerID) (input : HookInput)
    (command : RecurrentCommand) :
    Nat → Nat → List HookInput → WatchOutcome
  | 0, _, acc => .pending acc
  | fuel + 1, n, acc =>
    let output := hook.runWithoutTimeout command.cmd input n
    let acc := acc ++ [input]
    if containsInfos (world n) containerId then
      match output with
      | .error _ => watchLoopRun hook world containerId input command fuel (n + 1) acc
      | .ok out =>
        if out = "" then
          watchLoopRun hook world containerId input command fuel (n + 1) acc
        else
          match hook.decode out with
          | .error _ =>
              watchLoopRun hook world containerId input command fuel (n + 1) acc
          | .ok lim => .limited lim acc
    else .terminatedNoLimit acc

/-- Result of a whole `watch` call under the bounded-poll semantics:
either the immediate `Failure`, or the outcome of the task the caller got
back. A never-resolving future is `pending` with an empty invocation trace
at every fuel. -/
inductive WatchTaskResult where
  | failed (e : IsolatorError)
  | outcome (o : WatchOutcome)
  deriving DecidableEq

/-- `watch` followed by `fuel` polls of the spawned loop (when one is
spawned). -/
def watchRun (hook : WatchHook) (world : Nat → Registry)
    (watchCommand : Option RecurrentCommand) (infos : Registry)
    (containerId : ContainerID) (fuel : Nat) : WatchTaskResult :=
  match watch watchCommand infos containerId with
  | .neverResolving => .outcome (.pending [])
  | .failure e => .failed e
  | .loop input command =>
      .outcome (watchLoopRun hook world containerId input command fuel 0 [])

/-- Every element of a hook-invocation trace equals the given input. -/
def callsAllEq : List HookInput → HookInput → Bool
  | [], _ => true
  | x :: xs, inp => if x = inp then callsAllEq xs inp else false

/-! ### Concrete hook environments, used to instantiate the theorems -/

/-- A prepare hook whose command succeeds with empty output. -/
def hookOk : PrepareHook := ⟨fun _ _ => Except.ok "", fun _ => Except.ok 0⟩

/-- A prepare hook whose command fails to execute. -/
def hookRunErr : PrepareHook :=
  ⟨fun _ _ => Except.error "exec failed", fun _ => Except.ok 0⟩

/-- A prepare hook whose command emits output that does not decode. -/
def hookDecodeErr : PrepareHook :=
  ⟨fun _ _ => Except.ok "out", fun _ => Except.error "bad json"⟩

/-- A cleanup hook whose command succeeds. -/
def cleanupHookOk : CleanupHook := ⟨fun _ _ => Except.ok ""⟩

/-- A cleanup hook whose command fails to execute. -/
def cleanupHookErr : CleanupHook := ⟨fun _ _ => Except.error "exec failed"⟩

/-- A usage hook whose command fails to execute. -/
def usageHookErr : UsageHook :=
  ⟨fun _ _ => UsageRun.completed (Except.error "exec failed"),
   fun _ => Except.error "bad json"⟩

/-- A watch hook whose command always returns empty output. -/
def watchHookEmpty : WatchHook :=
  ⟨fun _ _ _ => Except.ok "", fun _ => Except.error "bad json"⟩

/-- A watch hook whose command always fails to execute. -/
def watchHookRunErr : WatchHook :=
  ⟨fun _ _ _ => Except.error "exec failed", fun _ => Except.error "bad json"⟩

/-- A watch hook whose command returns empty output on the first poll and a
decodable limitation afterwards. -/
def watchHookLim : WatchHook :=
  ⟨fun _ _ n => if n = 0 then Except.ok "" else Except.ok "lim",
   fun s => if s = "lim" then Except.ok 5 else Except.error "bad json"⟩

/-- A registry history that never changes. -/
def worldConst (r : Registry) : Nat → Registry := fun _ => r

/-- A registry history in which the record for `id` is erased from `r`
just before poll `k`. -/
def worldErasedAt (r : Registry) (id : ContainerID) (k : Nat) :
    Nat → Registry := fun n => if k ≤ n then eraseInfos r id else r

/-! ### Registry lemmas -/

theorem lookupInfos_eraseInfos_self (r : Registry) (id : ContainerID) :
    lookupInfos (eraseInfos r id) id = none := by
  induction r with
  | nil => rfl
  | cons p rest ih =>
    obtain ⟨k, v⟩ := p
    by_cases h : k = id <;> simp [eraseInfos, lookupInfos, h, ih]

theorem containsInfos_eraseInfos_self (r : Registry) (id : ContainerID) :
    containsInfos (eraseInfos r id) id = false := by
  simp [containsInfos, lookupInfos_eraseInfos_self]

theorem lookupInfos_putInfos_self (r : Registry) (id : ContainerID)
    (c : ContainerConfig) : lookupInfos (putInfos r id c) id = some c := by
  simp [putInfos, lookupInfos]

theorem containsInfos_putInfos_self (r : Registry) (id : ContainerID)
    (c : ContainerConfig) : containsInfos (putInfos r id c) id = true := by
  simp [containsInfos, lookupInfos_putInfos_self]

/-- When no record exists, `prepare` leaves the registry equal to the insert
of the new record, whatever the configured command and hook do. -/
theorem prepare_snd_of_not_contains (pc : Option Command) (hook : PrepareHook)
    (infos : Registry) (id : ContainerID) (cfg : ContainerConfig)
    (h0 : containsInfos infos id = false) :
    (prepare pc hook infos id cfg).2 = putInfos infos id cfg := by
  cases pc with
  | none => simp [prepare, h0]
  | some c =>
    cases h1 : hook.run c ⟨id, some cfg⟩ with
    | error e => simp [prepare, h0, h1]
    | ok output =>
      by_cases ho : output = ""
      · simp [prepare, h0, h1, ho]
      · cases hd : hook.decode output <;> simp [prepare, h0, h1, ho, hd]

/-- When no record exists, `prepare` cannot fail with AlreadyInit: only
execution or decode failures can arise on that path. -/
theorem prepare_fst_ne_alreadyInit (pc : Option Command) (hook : PrepareHook)
    (infos : Registry) (id : ContainerID) (cfg : ContainerConfig)
    (h0 : containsInfos infos id = false) :
    (prepare pc hook infos id cfg).1 ≠ .failure .alreadyInit := by
  cases pc with
  | none => simp [prepare, h0]
  | some c =>
    cases h1 : hook.run c ⟨id, some cfg⟩ with
    | error e => simp [prepare, h0, h1]
    | ok output =>
      by_cases ho : output = ""
      · simp [prepare, h0, h1, ho]
      · cases hd : hook.decode output <;> simp [prepare, h0, h1, ho, hd]

/-- `cleanup` always leaves the registry equal to the erase of the record,
whatever the configured command and hook do. -/
theorem cleanup_snd (cc : Option Command) (hook : CleanupHook)
    (infos : Registry) (id : ContainerID) :
    (cleanup cc hook infos id).2 = eraseInfos infos id := by
  cases cc with
  | none => rfl
  | some c =>
    cases h1 : hook.run c ⟨id, lookupInfos infos id⟩ <;> simp [cleanup, h1]

/-- Appending one more copy of the common input keeps a trace uniform. -/
theorem callsAllEq_append (acc : List HookInput) (inp : HookInput)
    (h : callsAllEq acc inp = true) : callsAllEq (acc ++ [inp]) inp = true := by
  induction acc with
  | nil => simp [callsAllEq]
  | cons x xs ih =>
    by_cases hx : x = inp
    · simp only [callsAllEq, hx, List.cons_append, if_pos rfl, if_true] at h ⊢
      exact ih h
    · simp [callsAllEq, hx] at h

/-- Every poll of the watch loop passes the captured input to the hook:
whatever the loop's outcome, its invocation trace extends a uniform
accumulator only with further copies of `input`. -/
theorem watchLoopRun_calls_allEq (hook : WatchHook) (world : Nat → Registry)
    (id : ContainerID) (input : HookInput) (command : RecurrentCommand) :
    ∀ fuel n acc, callsAllEq acc input = true →
      callsAllEq (WatchOutcome.calls
        (watchLoopRun hook world id input command fuel n acc)) input = true := by
  intro fuel
  induction fuel with
  | zero =>
    intro n acc h
    simpa [watchLoopRun, WatchOutcome.calls] using h
  | succ fuel ih =>
    intro n acc h
    have h' := callsAllEq_append acc input h
    by_cases hw : containsInfos (world n) id
    · cases ho : hook.runWithoutTimeout command.cmd input n with
      | error e =>
        simp only [watchLoopRun, ho, hw, if_pos rfl]
        exact ih (n + 1) (acc ++ [input]) h'
      | ok out =>
        by_cases hout : out = ""
        · simp only [watchLoopRun, ho, hw, if_pos rfl, hout, if_pos rfl]
          exact ih (n + 1) (acc ++ [input]) h'
        · cases hd : hook.decode out with
          | error e =>
            simp only [watchLoopRun, ho, hw, if_pos rfl, if_neg hout, hd]
            exact ih (n + 1) (acc ++ [input]) h'
          | ok lim =>
            simp only [watchLoopRun, ho, hw, if_pos rfl, if_neg hout, hd,
              WatchOutcome.calls]
            exact h'
    · simp only [Bool.not_eq_true] at hw
      simp only [watchLoopRun, hw, Bool.false_eq_true, if_false,
        WatchOutcome.calls]
      exact h'

/-! ### Claim theorems -/

/-- Claim C1: for every container identifier, if a record for that
identifier already exists in the registry (here: a first `prepare` on a
registry without the record inserted it), then a second call to `prepare`
for the same identifier returns a Failure (AlreadyInitialized) and leaves
the registry unchanged, regardless of whether the first call's hook
succeeded or failed (the first call's command and hook are universally
quantified). -/
theorem prepare_second_call_alreadyInit
    (pc1 pc2 : Option Command) (h1 h2 : PrepareHook) (st0 : Registry)
    (id : ContainerID) (cfg cfg' : ContainerConfig)
    (h0 : containsInfos st0 id = false) :
    prepare pc2 h2 (prepare pc1 h1 st0 id cfg).2 id cfg' =
      (.failure .alreadyInit, (prepare pc1 h1 st0 id cfg).2) := by
  have hs := prepare_snd_of_not_contains pc1 h1 st0 id cfg h0
  rw [hs]
  simp [prepare, containsInfos_putInfos_self]

/-- Witness for C1: first `prepare` ran a failing hook, second `prepare`
still gets AlreadyInitialized with the registry untouched. -/
theorem prepare_second_call_alreadyInit_witness :
    containsInfos [] 7 = false ∧
    prepare (some 0) hookOk (prepare (some 0) hookRunErr [] 7 1).2 7 2 =
      (.failure .alreadyInit, (prepare (some 0) hookRunErr [] 7 1).2) :=
  ⟨by decide,
   prepare_second_call_alreadyInit (some 0) (some 0) hookRunErr hookOk [] 7 1 2
     (by decide)⟩

/-- Claim C2: for an identifier with no existing record, `prepare` inserts
the (id, config) record into the registry, and this insert survives every
hook outcome (no rollback): whatever the hook does, the post-registry is
exactly the insert; when the hook's execution fails or its non-empty output
fails to decode, `prepare` returns the corresponding Failure while the
inserted record remains. -/
theorem prepare_insert_survives_hook_failure
    (pc : Option Command) (hook hookE hookD : PrepareHook) (c : Command)
    (st : Registry) (id : ContainerID) (cfg : ContainerConfig)
    (e e2 out : String)
    (h0 : containsInfos st id = false)
    (he : hookE.run c ⟨id, some cfg⟩ = .error e)
    (hd1 : hookD.run c ⟨id, some cfg⟩ = .ok out)
    (hd2 : out ≠ "")
    (hd3 : hookD.decode out = .error e2) :
    (prepare pc hook st id cfg).2 = putInfos st id cfg
  ∧ lookupInfos (prepare pc hook st id cfg).2 id = some cfg
  ∧ prepare (some c) hookE st id cfg =
      (.failure (.executionFailure e), putInfos st id cfg)
  ∧ prepare (some c) hookD st id cfg =
      (.failure (.decodeFailure
        ("Unable to deserialize ContainerLaunchInfo: " ++ e2)),
       putInfos st id cfg) := by
  refine ⟨prepare_snd_of_not_contains pc hook st id cfg h0, ?_, ?_, ?_⟩
  · rw [prepare_snd_of_not_contains pc hook st id cfg h0]
    exact lookupInfos_putInfos_self st id cfg
  · simp [prepare, h0, he]
  · simp [prepare, h0, hd1, hd2, hd3]

/-- Witness for C2: on an empty registry, a failing-execution hook and an
undecodable-output hook both fail while the record stays inserted. -/
theorem prepare_insert_survives_hook_failure_witness :
    containsInfos [] 7 = false ∧
    ((prepare (some 0) hookOk [] 7 1).2 = putInfos [] 7 1
     ∧ lookupInfos (prepare (some 0) hookOk [] 7 1).2 7 = some 1
     ∧ prepare (some 0) hookRunErr [] 7 1 =
         (.failure (.executionFailure "exec failed"), putInfos [] 7 1)
     ∧ prepare (some 0) hookDecodeErr [] 7 1 =
         (.failure (.decodeFailure
           ("Unable to deserialize ContainerLaunchInfo: " ++ "bad json")),
          putInfos [] 7 1)) :=
  ⟨by decide,
   prepare_insert_survives_hook_failure (some 0) hookOk hookRunErr hookDecodeErr
     0 [] 7 1 "exec failed" "bad json" "out"
     (by decide) (by decide) (by decide) (by decide) (by decide)⟩

/-- Claim C3: after `cleanup` returns, no record for the identifier remains
in the registry — whether the cleanup command is unconfigured, the hook
succeeded, or the hook's execution failed; in the execution-failure case the
Failure is returned with the record already removed; consequently a
subsequent `prepare` for the same identifier never yields
AlreadyInitialized. -/
theorem cleanup_unconditionally_removes
    (cc : Option Command) (hook hookF : CleanupHook) (c : Command)
    (pc : Option Command) (ph : PrepareHook)
    (st : Registry) (id : ContainerID) (cfg : ContainerConfig) (e : String)
    (hf : hookF.run c ⟨id, lookupInfos st id⟩ = .error e) :
    containsInfos (cleanup cc hook st id).2 id = false
  ∧ cleanup none hook st id = (.success, eraseInfos st id)
  ∧ cleanup (some c) hookF st id =
      (.failure (.executionFailure e), eraseInfos st id)
  ∧ (prepare pc ph (cleanup cc hook st id).2 id cfg).1 ≠
      .failure .alreadyInit := by
  refine ⟨?_, rfl, ?_, ?_⟩
  · rw [cleanup_snd]
    exact containsInfos_eraseInfos_self st id
  · simp [cleanup, hf]
  · rw [cleanup_snd]
    exact prepare_fst_ne_alreadyInit pc ph (eraseInfos st id) id cfg
      (containsInfos_eraseInfos_self st id)

/-- Witness for C3: cleanup with a failing hook on a one-record registry
removes the record, surfaces the failure, and a later `prepare` is not
rejected as AlreadyInitialized. -/
theorem cleanup_unconditionally_removes_witness :
    cleanupHookErr.run 0 ⟨7, lookupInfos [(7, 1)] 7⟩ =
        .error "exec failed" ∧
    (containsInfos (cleanup (some 0) cleanupHookOk [(7, 1)] 7).2 7 = false
     ∧ cleanup none cleanupHookOk [(7, 1)] 7 =
         (.success, eraseInfos [(7, 1)] 7)
     ∧ cleanup (some 0) cleanupHookErr [(7, 1)] 7 =
         (.failure (.executionFailure "exec failed"), eraseInfos [(7, 1)] 7)
     ∧ (prepare none hookOk (cleanup (some 0) cleanupHookOk [(7, 1)] 7).2
          7 2).1 ≠ .failure .alreadyInit) :=
  ⟨by decide,
   cleanup_unconditionally_removes (some 0) cleanupHookOk cleanupHookErr 0
     none hookOk [(7, 1)] 7 2 "exec failed" (by decide)⟩

/-- Claim C4: if the container's record is absent from the registry observed
at poll `n` (it was removed while the loop was between polls), then that
poll's step — whose hook invocation (the loop body) has already run before
the iterate callback looks at the registry — observes the absence before
interpreting any output (the hook and its output are universally
quantified, so the result cannot depend on them), terminates the loop
without a Limitation and without an error, and performs no further hook
invocation: the final trace is the accumulated one plus only that poll's
own call. -/
theorem watch_poll_after_removal_terminates
    (hook : WatchHook) (world : Nat → Registry) (id : ContainerID)
    (input : HookInput) (command : RecurrentCommand)
    (fuel n : Nat) (acc : List HookInput)
    (hc : containsInfos (world n) id = false) :
    watchLoopRun hook world id input command (fuel + 1) n acc =
      .terminatedNoLimit (acc ++ [input]) := by
  simp [watchLoopRun, hc]

/-- Witness for C4: the record is erased just before poll 1; the loop
terminates at poll 1 with no limitation and exactly one further hook call. -/
theorem watch_poll_after_removal_terminates_witness :
    containsInfos (worldErasedAt [(7, 1)] 7 1 1) 7 = false ∧
    watchLoopRun watchHookEmpty (worldErasedAt [(7, 1)] 7 1) 7 ⟨7, some 1⟩
        ⟨0, 10⟩ 4 1 [⟨7, some 1⟩] =
      .terminatedNoLimit [⟨7, some 1⟩, ⟨7, some 1⟩] :=
  ⟨by decide,
   watch_poll_after_removal_terminates watchHookEmpty
     (worldErasedAt [(7, 1)] 7 1) 7 ⟨7, some 1⟩ ⟨0, 10⟩ 3 1 [⟨7, some 1⟩]
     (by decide)⟩

/-- Claim C5: at a poll whose observed registry still holds the record, the
step policy is: a hook execution error, or non-empty output that fails to
decode, only continues the loop at the next poll index (the condition is
logged, no error reaches the task's result); empty output continues
likewise; only successfully decoded non-empty output terminates the loop,
resolving it with that Limitation. -/
theorem watch_poll_step_policy
    (hook : WatchHook) (world : Nat → Registry) (id : ContainerID)
    (input : HookInput) (command : RecurrentCommand)
    (fuel n : Nat) (acc : List HookInput)
    (hc : containsInfos (world n) id = true) :
    watchLoopRun hook world id input command (fuel + 1) n acc =
      (match hook.runWithoutTimeout command.cmd input n with
       | .error _ =>
           watchLoopRun hook world id input command fuel (n + 1) (acc ++ [input])
       | .ok out =>
         if out = "" then
           watchLoopRun hook world id input command fuel (n + 1) (acc ++ [input])
         else
           match hook.decode out with
           | .error _ =>
               watchLoopRun hook world id input command fuel (n + 1)
                 (acc ++ [input])
           | .ok lim => .limited lim (acc ++ [input])) := by
  simp [watchLoopRun, hc]

/-- Witness for C5: with the record present and a hook whose execution
fails, the poll continues into the next poll index instead of failing. -/
theorem watch_poll_step_policy_witness :
    containsInfos (worldConst [(7, 1)] 0) 7 = true ∧
    watchLoopRun watchHookRunErr (worldConst [(7, 1)]) 7 ⟨7, some 1⟩
        ⟨0, 10⟩ 3 0 [] =
      watchLoopRun watchHookRunErr (worldConst [(7, 1)]) 7 ⟨7, some 1⟩
        ⟨0, 10⟩ 2 1 [⟨7, some 1⟩] :=
  ⟨by decide,
   watch_poll_step_policy watchHookRunErr (worldConst [(7, 1)]) 7 ⟨7, some 1⟩
     ⟨0, 10⟩ 2 0 [] (by decide)⟩

/-- Claim C6: with an existing record and a configured usage command,
`usage` never returns an error: the hook's future failing, an execution
error, empty output and a decode error all recover to the default empty
snapshot timestamped with the time captured at the start of the call, and
only decoded non-empty output is returned as is; on a registry with no
record for the identifier (and the command configured), NotInitialized is
the failure — the only one `usage` can produce. -/
theorem usage_never_fails_with_record
    (c : Command) (hook : UsageHook) (st st2 : Registry)
    (id : ContainerID) (cfg : ContainerConfig) (now : Nat)
    (hr : lookupInfos st id = some cfg)
    (h2 : lookupInfos st2 id = none) :
    (usage (some c) hook st id now =
      match hook.asyncRun c ⟨id, some cfg⟩ with
      | .futureFailed _ => .stats (emptyStats now)
      | .completed (.error _) => .stats (emptyStats now)
      | .completed (.ok output) =>
        if output = "" then .stats (emptyStats now)
        else
          match hook.decode output with
          | .error _ => .stats (emptyStats now)
          | .ok s => .stats s)
  ∧ (usage (some c) hook st id now).isFailure = false
  ∧ usage (some c) hook st2 id now = .failure .notInit := by
  refine ⟨by simp [usage, hr], ?_, by simp [usage, h2]⟩
  cases hA : hook.asyncRun c ⟨id, some cfg⟩ with
  | futureFailed m => simp [usage, hr, hA, UsageResult.isFailure]
  | completed o =>
    cases o with
    | error e => simp [usage, hr, hA, UsageResult.isFailure]
    | ok output =>
      by_cases ho : output = ""
      · simp [usage, hr, hA, ho, UsageResult.isFailure]
      · cases hd : hook.decode output <;>
          simp [usage, hr, hA, ho, hd, UsageResult.isFailure]

/-- Witness for C6: a usage hook with a failing command recovers to the
empty snapshot timestamped 42; the same call on a registry without the
record is the NotInitialized failure. -/
theorem usage_never_fails_with_record_witness :
    lookupInfos [(7, 1)] 7 = some 1 ∧ lookupInfos [] 7 = (none : Option Nat) ∧
    (usage (some 0) usageHookErr [(7, 1)] 7 42 = .stats (emptyStats 42)
     ∧ (usage (some 0) usageHookErr [(7, 1)] 7 42).isFailure = false
     ∧ usage (some 0) usageHookErr [] 7 42 = .failure .notInit) :=
  ⟨by decide, by decide,
   usage_never_fails_with_record 0 usageHookErr [(7, 1)] [] 7 1 42
     (by decide) (by decide)⟩

/-- Claim C7: with a configured watch command and no record for the
identifier, `watch` returns the NotInitialized Failure without spawning a
polling loop or invoking the hook: the whole run is `.failed .notInit`,
carrying no loop outcome and no hook-invocation trace, for every hook and
every amount of fuel. -/
theorem watch_missing_record_notInit
    (wc : RecurrentCommand) (hook : WatchHook) (world : Nat → Registry)
    (st : Registry) (id : ContainerID) (fuel : Nat)
    (hc : lookupInfos st id = none) :
    watch (some wc) st id = .failure .notInit
  ∧ watchRun hook world (some wc) st id fuel = .failed .notInit := by
  constructor
  · simp [watch, hc]
  · simp [watchRun, watch, hc]

/-- Witness for C7: a configured watch command on an empty registry fails
with NotInitialized at every fuel, with no loop outcome. -/
theorem watch_missing_record_notInit_witness :
    lookupInfos [] 7 = (none : Option Nat) ∧
    (watch (some ⟨0, 10⟩) [] 7 = .failure .notInit
     ∧ watchRun watchHookEmpty (worldConst []) (some ⟨0, 10⟩) [] 7 5 =
         .failed .notInit) :=
  ⟨by decide,
   watch_missing_record_notInit ⟨0, 10⟩ watchHookEmpty (worldConst []) [] 7 5
     (by decide)⟩

/-- Claim C8: with no watch command configured, `watch` returns the
never-resolving future: for every registry, every hook and every amount of
fuel, the task is still pending with an empty hook-invocation trace — it
resolves neither with a Limitation nor with a failure, and no hook is ever
invoked. -/
theorem watch_unconfigured_never_resolves
    (hook : WatchHook) (world : Nat → Registry) (st : Registry)
    (id : ContainerID) (fuel : Nat) :
    watch none st id = .neverResolving
  ∧ watchRun hook world none st id fuel = .outcome (.pending []) :=
  ⟨rfl, rfl⟩

/-- Claim C9: with no usage command configured, `usage` returns the default
empty snapshot timestamped at call start for every registry — including one
with no record for the identifier — and never returns a failure: the
record-presence check is only reached when a usage command is configured. -/
theorem usage_unconfigured_default
    (hook : UsageHook) (st : Registry) (id : ContainerID) (now : Nat) :
    usage none hook st id now = .stats (emptyStats now)
  ∧ (usage none hook st id now).isFailure = false :=
  ⟨rfl, rfl⟩

/-- Claim C10: the watch hook's input document is built exactly once, at
watch-call time, from the record then present in the registry; the spawned
loop's closure carries that input, and every poll of the loop passes
exactly that input to the hook, for every later evolution of the registry
(the world is universally quantified, so registry changes never alter the
input of a running loop). -/
theorem watch_input_serialized_once
    (wc : RecurrentCommand) (hook : WatchHook) (world : Nat → Registry)
    (st0 : Registry) (id : ContainerID) (cfg : ContainerConfig) (fuel : Nat)
    (hcfg : lookupInfos st0 id = some cfg) :
    watch (some wc) st0 id = .loop ⟨id, some cfg⟩ wc
  ∧ callsAllEq (WatchOutcome.calls
      (watchLoopRun hook world id ⟨id, some cfg⟩ wc fuel 0 []))
      ⟨id, some cfg⟩ = true := by
  constructor
  · simp [watch, hcfg]
  · exact watchLoopRun_calls_allEq hook world id ⟨id, some cfg⟩ wc fuel 0 [] rfl

/-- Witness for C10: the loop spawned from a one-record registry keeps
passing the captured input even though the record is erased before poll 2. -/
theorem watch_input_serialized_once_witness :
    lookupInfos [(7, 1)] 7 = some 1 ∧
    (watch (some ⟨0, 10⟩) [(7, 1)] 7 = .loop ⟨7, some 1⟩ ⟨0, 10⟩
     ∧ callsAllEq (WatchOutcome.calls
         (watchLoopRun watchHookEmpty (worldErasedAt [(7, 1)] 7 2) 7
           ⟨7, some 1⟩ ⟨0, 10⟩ 4 0 [])) ⟨7, some 1⟩ = true) :=
  ⟨by decide,
   watch_input_serialized_once ⟨0, 10⟩ watchHookEmpty
     (worldErasedAt [(7, 1)] 7 2) [(7, 1)] 7 1 4 (by decide)⟩

end CommandIsolator
